import Mathlib

/-!
A shallow embedding of `mushroom/algorithms/value/td.py`: the temporal-difference
update rules of the mushroom reinforcement-learning library (Q-Learning, Double
Q-Learning, Weighted Q-Learning, Speedy Q-Learning, SARSA, SARSA(lambda) in its
discrete and continuous forms, Expected SARSA, True Online SARSA(lambda),
R-Learning and RQ-Learning).

Modelling conventions:
* a `Table` (`mushroom.utils.table.Table`) is a total function from state and
  action indices (naturals) to exact rationals standing for its float entries;
* the stateful learning-rate schedules (`self.alpha(state, action)`, `beta`,
  `delta`) are external collaborators: the scalar a schedule returns at one
  call is threaded in as an explicit argument (for Double Q-Learning, where the
  claim is about the per-member schedule clones, the schedule is instead
  modelled as an explicit state machine `call : sigma -> state -> action -> value x sigma`);
* the process-wide random source is threaded as explicit arguments: the
  uniform draw of `np.random.uniform()`, the index drawn by
  `np.random.choice`, and the matrix of normal samples drawn by
  `np.random.normal`;
* `raise` is modelled by `Except String`.
-/

namespace TD

/-- A dense Q-table indexed by state and action (`mushroom.utils.table.Table`):
entries are exact rationals standing for the float entries of the numpy array. -/
abbrev Table : Type := ℕ → ℕ → ℚ

/-- A weight vector of a parametric regressor, for the continuous rules. -/
abbrev Vec : Type := ℕ → ℚ

/-- The in-place single-entry write `table[state, action] = v`. -/
def setQ (T : Table) (state action : ℕ) (v : ℚ) : Table :=
  fun s a => if s = state ∧ a = action then v else T s a

/-- `np.max` of a list of values (sentinel 0 for the empty list, which numpy
rejects; every use below is over a nonempty action row). -/
def listMax : List ℚ → ℚ
  | [] => 0
  | x :: xs => xs.foldl max x

/-- `np.max(T[s, :])`: the maximum of a row over the `nA` actions. -/
def rowMax (nA : ℕ) (row : ℕ → ℚ) : ℚ :=
  listMax ((List.range nA).map row)

/-- `np.dot` of two sequences over their first `n` entries. -/
def dotRange (n : ℕ) (f g : ℕ → ℚ) : ℚ :=
  ((List.range n).map (fun i => f i * g i)).sum

/-- `np.argwhere(row == np.max(row)).ravel()`: the increasing list of the
actions attaining the row maximum (`DoubleQLearning._update`). -/
def argwhereMax (nA : ℕ) (row : ℕ → ℚ) : List ℕ :=
  (List.range nA).filter (fun a => row a = rowMax nA row)

/-- `QLearning._update`: off-policy one-step update; `α` is the scalar the
learning-rate schedule `self.alpha(state, action)` returns at this call. -/
def QLearning.update (nA : ℕ) (γ : ℚ) (Q : Table) (state action : ℕ)
    (reward : ℚ) (next_state : ℕ) (absorbing : Bool) (α : ℚ) : Table :=
  let q_current := Q state action
  let q_next := if absorbing then 0 else rowMax nA (Q next_state)
  setQ Q state action (q_current + α * (reward + γ * q_next - q_current))

/-- The agent state of `DoubleQLearning`: an ensemble of exactly two tables
(`EnsembleTable(2, ...)`) and, per member, the state of its own learning-rate
schedule (`self.alpha = [deepcopy(self.alpha), deepcopy(self.alpha)]`); the
schedule is an explicit state machine of state type `σ`. -/
structure DoubleQLearning.State (σ : Type) where
  Q : Fin 2 → Table
  alpha : Fin 2 → σ

/-- `DoubleQLearning.__init__`: both tables zero-initialized, both members
holding (independent) copies of the same initial schedule state `a0`. -/
def DoubleQLearning.init {σ : Type} (a0 : σ) : DoubleQLearning.State σ :=
  { Q := fun _ => fun _ _ => 0, alpha := fun _ => a0 }

/-- `0 if np.random.uniform() < .5 else 1`: the member index drawn from one
uniform draw `u` of `np.random.uniform()` (uniform on `[0,1)`). -/
def DoubleQLearning.idx (u : ℚ) : Fin 2 := if u < 1/2 then 0 else 1

/-- `DoubleQLearning._update`. `call` runs one schedule step (the value the
schedule returns at `(state, action)` and its successor state); `u` is the
member-selection draw and `tieDraw` the draw of `np.random.choice` over the
argmax list (`np.random.choice` picks a position uniformly, modelled as
`tieDraw % length`). -/
def DoubleQLearning.update {σ : Type} (call : σ → ℕ → ℕ → ℚ × σ) (nA : ℕ)
    (γ : ℚ) (S : DoubleQLearning.State σ) (state action : ℕ) (reward : ℚ)
    (next_state : ℕ) (absorbing : Bool) (u : ℚ) (tieDraw : ℕ) :
    DoubleQLearning.State σ :=
  let i := DoubleQLearning.idx u
  let q_current := S.Q i state action
  let q_next : ℚ :=
    if absorbing then 0
    else
      let ties := argwhereMax nA (S.Q i next_state)
      S.Q (1 - i) next_state (ties.getD (tieDraw % ties.length) 0)
  let ac := call (S.alpha i) state action
  let q := q_current + ac.1 * (reward + γ * q_next - q_current)
  { Q := fun j => if j = i then setQ (S.Q j) state action q else S.Q j,
    alpha := fun j => if j = i then ac.2 else S.alpha j }

/-- The agent state of `WeightedQLearning`. The source stores the standard
deviation `self._sigma`; since `sigma` is only ever written as the square root
of the floored variance estimator and only consumed as the scale of the normal
draws (which are threaded in explicitly as realized samples), the model tracks
its exact square `sigmaSq` (so `sigma = sqrt sigmaSq`); `_sigma` starts at
`1e10`, hence `sigmaSq` at `1e20`. -/
structure WeightedQLearning.State where
  Q : Table
  sampling : Bool
  precision : ℕ
  n_updates : ℕ → ℕ → ℕ
  sigmaSq : Table
  Qbar : Table
  Q2bar : Table
  weights_var : Table
  use_weighted_policy : Bool
  w : ℕ → ℚ
  next_action : ℕ

/-- `WeightedQLearning.__init__`: zero tables, `_sigma` at `1e10`
(`sigmaSq = 1e20`), counters at zero.  Note the constructor performs no
validation of `sampling`: it only records the flag. -/
def WeightedQLearning.init (sampling : Bool) (precision : ℕ)
    (weighted_policy : Bool) : WeightedQLearning.State :=
  { Q := fun _ _ => 0
    sampling := sampling
    precision := precision
    n_updates := fun _ _ => 0
    sigmaSq := fun _ _ => 10 ^ 20
    Qbar := fun _ _ => 0
    Q2bar := fun _ _ => 0
    weights_var := fun _ _ => 0
    use_weighted_policy := weighted_policy
    w := fun _ => 0
    next_action := 0 }

/-- `np.argmax` of a list: the first position attaining the maximum. -/
def argmaxIdx : List ℚ → ℕ
  | [] => 0
  | [_] => 0
  | x :: y :: xs =>
      let j := argmaxIdx (y :: xs)
      if x < (y :: xs).getD j 0 then j + 1 else 0

/-- `WeightedQLearning._next_q`: the weighted estimator of the next-state
value.  `samples` is the realized `precision × nA` matrix of
`np.random.normal` draws (one row per trial) and `policyDraw` the realized
`np.random.choice` draw of the weighted policy.  Returns the estimator value,
the new weight vector `_w` and the new `next_action`; `sampling=False` raises
`NotImplementedError`. -/
def WeightedQLearning.nextQ (nA : ℕ) (S : WeightedQLearning.State)
    (next_state : ℕ) (samples : List (List ℚ)) (policyDraw : ℕ) :
    Except String (ℚ × (ℕ → ℚ) × ℕ) :=
  let means := fun a => S.Q next_state a
  if S.sampling then
    let maxIdxs := samples.map argmaxIdx
    let w := fun a => ((maxIdxs.filter (fun j => j = a)).length : ℚ) / (S.precision : ℚ)
    let na := if S.use_weighted_policy then policyDraw else S.next_action
    .ok (dotRange nA w means, w, na)
  else
    .error "NotImplementedError"

/-- `WeightedQLearning._update`: the standard residual update with the
statistical bootstrap target, followed by the Welford-style running-moment
updates and (once the entry's count exceeds 1) the floored variance estimator
`max(var * weights_var, 1e-10)` written (as its square) into the sigma store. -/
def WeightedQLearning.update (nA : ℕ) (γ : ℚ) (S : WeightedQLearning.State)
    (state action : ℕ) (reward : ℚ) (next_state : ℕ) (absorbing : Bool)
    (α : ℚ) (samples : List (List ℚ)) (policyDraw : ℕ) :
    Except String WeightedQLearning.State :=
  let q_current := S.Q state action
  match (if absorbing then .ok (0, S.w, S.next_action)
         else WeightedQLearning.nextQ nA S next_state samples policyDraw) with
  | .error e => .error e
  | .ok (q_next, w2, na2) =>
      let target := reward + γ * q_next
      let Q2 := setQ S.Q state action (q_current + α * (target - q_current))
      let n2 : ℕ := S.n_updates state action + 1
      let qb := S.Qbar state action + (target - S.Qbar state action) / (n2 : ℚ)
      let q2b := S.Q2bar state action + (target ^ 2 - S.Q2bar state action) / (n2 : ℚ)
      let wv := (1 - α) ^ 2 * S.weights_var state action + α ^ 2
      let sigmaSq2 :=
        if 1 < n2 then
          let var := (n2 : ℚ) * (q2b - qb ^ 2) / ((n2 : ℚ) - 1)
          setQ S.sigmaSq state action (max (var * wv) (1 / 10 ^ 10))
        else S.sigmaSq
      .ok { S with
            Q := Q2
            n_updates := fun x y =>
              if x = state ∧ y = action then n2 else S.n_updates x y
            sigmaSq := sigmaSq2
            Qbar := setQ S.Qbar state action qb
            Q2bar := setQ S.Q2bar state action q2b
            weights_var := setQ S.weights_var state action wv
            w := w2
            next_action := na2 }

/-- One recorded transition and its per-call collaborator outputs, for running
a sequence of `WeightedQLearning` updates. -/
structure WeightedQLearning.In where
  state : ℕ
  action : ℕ
  reward : ℚ
  next_state : ℕ
  absorbing : Bool
  α : ℚ
  samples : List (List ℚ)
  policyDraw : ℕ

/-- Run a sequence of `WeightedQLearning` updates, stopping at the first raise. -/
def WeightedQLearning.run (nA : ℕ) (γ : ℚ) (S : WeightedQLearning.State) :
    List WeightedQLearning.In → Except String WeightedQLearning.State
  | [] => .ok S
  | t :: rest =>
      match WeightedQLearning.update nA γ S t.state t.action t.reward
          t.next_state t.absorbing t.α t.samples t.policyDraw with
      | .error e => .error e
      | .ok S2 => WeightedQLearning.run nA γ S2 rest

/-- The agent state of `SpeedyQLearning`: the current table and the previous
deep snapshot `self.old_q`. -/
structure SpeedyQLearning.State where
  Q : Table
  old_q : Table

/-- `SpeedyQLearning.__init__`: `Q` zero, `old_q = deepcopy(Q)`. -/
def SpeedyQLearning.init : SpeedyQLearning.State :=
  { Q := fun _ _ => 0, old_q := fun _ _ => 0 }

/-- `SpeedyQLearning._update`: targets from the current and snapshot stores,
blended write, then `old_q` replaced by the pre-update current store. -/
def SpeedyQLearning.update (nA : ℕ) (γ : ℚ) (S : SpeedyQLearning.State)
    (state action : ℕ) (reward : ℚ) (next_state : ℕ) (absorbing : Bool)
    (α : ℚ) : SpeedyQLearning.State :=
  let old_q := S.Q
  let max_q_cur := if absorbing then 0 else rowMax nA (S.Q next_state)
  let max_q_old := if absorbing then 0 else rowMax nA (S.old_q next_state)
  let target_cur := reward + γ * max_q_cur
  let target_old := reward + γ * max_q_old
  let q_cur := S.Q state action
  { Q := setQ S.Q state action
      (q_cur + α * (target_old - q_cur) + (1 - α) * (target_cur - target_old))
    old_q := old_q }

/-- `SARSA._update`: on-policy one-step update; `next_action` is the action
the external policy's `draw_action(next_state)` returns at this call. -/
def SARSA.update (γ : ℚ) (Q : Table) (state action : ℕ) (reward : ℚ)
    (next_state : ℕ) (absorbing : Bool) (α : ℚ) (next_action : ℕ) : Table :=
  let q_current := Q state action
  let q_next := if absorbing then 0 else Q next_state next_action
  setQ Q state action (q_current + α * (reward + γ * q_next - q_current))

/-- Modelled from the spec: `EligibilityTrace.update` of
`mushroom/utils/eligibility_trace.py` (that file is not under `src/`): a
*replacing* trace sets the visited entry to 1, an *accumulating* trace
increments it by 1. -/
def EligibilityTrace.update (trace : Table) (state action : ℕ)
    (replacing : Bool) : Table :=
  if replacing then setQ trace state action 1
  else setQ trace state action (trace state action + 1)

/-- The agent state of `SARSALambdaDiscrete`: the table and its trace. -/
structure SARSALambdaDiscrete.State where
  Q : Table
  e : Table

/-- `SARSALambdaDiscrete._update`: TD error as in SARSA, trace bump at the
visited entry, whole-table write `Q += alpha * delta * e`, then whole-trace
decay by `gamma * lambda`. -/
def SARSALambdaDiscrete.update (γ lam : ℚ) (replacing : Bool)
    (S : SARSALambdaDiscrete.State) (state action : ℕ) (reward : ℚ)
    (next_state : ℕ) (absorbing : Bool) (α : ℚ) (next_action : ℕ) :
    SARSALambdaDiscrete.State :=
  let q_current := S.Q state action
  let q_next := if absorbing then 0 else S.Q next_state next_action
  let delta := reward + γ * q_next - q_current
  let e2 := EligibilityTrace.update S.e state action replacing
  { Q := fun s a => S.Q s a + α * delta * e2 s a
    e := fun s a => e2 s a * (γ * lam) }

/-- The agent state of `SARSALambdaContinuous`: the regressor weights and the
weight-space trace. -/
structure SARSALambdaContinuous.State where
  theta : Vec
  e : Vec

/-- `SARSALambdaContinuous._update` over an abstract approximator: `predict`
and `diff` are the regressor's collaborator-supplied prediction and gradient
(taking the weights explicitly), `phi_state`/`phi_next_state` the feature
vectors `self.phi` yields, `next_action` the policy's draw. -/
def SARSALambdaContinuous.update (predict : Vec → Vec → ℕ → ℚ)
    (diff : Vec → ℕ → Vec) (γ lam : ℚ) (S : SARSALambdaContinuous.State)
    (phi_state : Vec) (action : ℕ) (reward : ℚ) (phi_next_state : Vec)
    (absorbing : Bool) (α : ℚ) (next_action : ℕ) :
    SARSALambdaContinuous.State :=
  let q_current := predict S.theta phi_state action
  let e2 : Vec := fun i => γ * lam * S.e i + diff phi_state action i
  let q_next := if absorbing then 0 else predict S.theta phi_next_state next_action
  let delta := reward + γ * q_next - q_current
  { theta := fun i => S.theta i + α * delta * e2 i, e := e2 }

/-- `ExpectedSARSA._update`: the bootstrap is the policy-expected next value
`Q[next_state, :].dot(policy(next_state))`; `dist` is the probability vector
the external policy returns for `next_state` at this call. -/
def ExpectedSARSA.update (nA : ℕ) (γ : ℚ) (Q : Table) (state action : ℕ)
    (reward : ℚ) (next_state : ℕ) (absorbing : Bool) (α : ℚ)
    (dist : ℕ → ℚ) : Table :=
  let q_current := Q state action
  let q_next := if absorbing then 0 else dotRange nA (Q next_state) dist
  setQ Q state action (q_current + α * (reward + γ * q_next - q_current))

/-- Modelled from the spec: `get_action_features` of `mushroom/features`
(not under `src/`) for a linear approximator over `nA` actions with `d`
state features: the state features placed in the block of the chosen action,
zero elsewhere. -/
def get_action_features (d : ℕ) (phi : Vec) (action : ℕ) : Vec :=
  fun i => if action * d ≤ i ∧ i < (action + 1) * d then phi (i - action * d) else 0

/-- The agent state of `TrueOnlineSARSALambda`: linear weights, weight-space
trace, and the scalar `self._q_old` (`None` after `episode_start`). -/
structure TrueOnlineSARSALambda.State where
  theta : Vec
  e : Vec
  q_old : Option ℚ

/-- `TrueOnlineSARSALambda._update` with the `LinearApproximator` (modelled
from the spec as the dot product of the weights with the action-block
features, its file not being under `src/`): Dutch-trace update, TD error
against the stored `q_old`, weight write, then `q_old = q_next`. -/
def TrueOnlineSARSALambda.update (d nA : ℕ) (γ lam : ℚ)
    (S : TrueOnlineSARSALambda.State) (phi_state : Vec) (action : ℕ)
    (reward : ℚ) (phi_next_state : Vec) (absorbing : Bool) (α : ℚ)
    (next_action : ℕ) : TrueOnlineSARSALambda.State :=
  let n := d * nA
  let phi_sa := get_action_features d phi_state action
  let q_current := dotRange n S.theta phi_sa
  let q_old := S.q_old.getD q_current
  let e_phi := dotRange n S.e phi_sa
  let e2 : Vec := fun i => γ * lam * S.e i + α * (1 - γ * lam * e_phi) * phi_sa i
  let q_next := if absorbing then 0
    else dotRange n S.theta (get_action_features d phi_next_state next_action)
  let delta := reward + γ * q_next - q_old
  { theta := fun i =>
      S.theta i + delta * e2 i + α * (q_old - q_current) * phi_sa i
    e := e2
    q_old := some q_next }

/-- The agent state of `RLearning`: the table and the scalar average-reward
estimate `self._rho` (initially 0). -/
structure RLearning.State where
  Q : Table
  rho : ℚ

/-- `RLearning.__init__`: zero table, `rho = 0`. -/
def RLearning.init : RLearning.State := { Q := fun _ _ => 0, rho := 0 }

/-- `RLearning._update`: undiscounted residual write of `Q(s,a)`, then the
conditional `rho` update guarded by `q_new == np.max(Q[state, :])` over the
just-updated row; `α` and `β` are the scalars the two schedules return. -/
def RLearning.update (nA : ℕ) (S : RLearning.State) (state action : ℕ)
    (reward : ℚ) (next_state : ℕ) (absorbing : Bool) (α β : ℚ) :
    RLearning.State :=
  let q_current := S.Q state action
  let q_next := if absorbing then 0 else rowMax nA (S.Q next_state)
  let delta := reward - S.rho + q_next - q_current
  let q_new := q_current + α * delta
  let Q2 := setQ S.Q state action q_new
  let q_max := rowMax nA (Q2 state)
  { Q := Q2
    rho := if q_new = q_max then S.rho + β * (reward + q_next - q_max - S.rho)
           else S.rho }

/-- The agent state of `RQLearning`: the combined table `Q`, the continuation
table `Q_tilde`, the reward table `R_tilde`, the `off_policy` flag, and which
of the mutually exclusive schedules the constructor accepted (`use_delta` is
true in the `delta` branch, false in the `beta` branch). -/
structure RQLearning.State where
  Q : Table
  Q_tilde : Table
  R_tilde : Table
  off_policy : Bool
  use_delta : Bool

/-- The three zero tables `RQLearning.__init__` builds once its schedule
check has passed. -/
def RQLearning.initState (off_policy use_delta : Bool) : RQLearning.State :=
  { Q := fun _ _ => 0
    Q_tilde := fun _ _ => 0
    R_tilde := fun _ _ => 0
    off_policy := off_policy
    use_delta := use_delta }

/-- `RQLearning.__init__`: the schedule-configuration guard.  `beta` and
`delta` are the optionally-supplied schedule collaborators (their type `P` is
irrelevant to the guard); exactly one must be supplied, otherwise
`ValueError('delta or beta parameters needed.')` is raised before any table
is built. -/
def RQLearning.make {P : Type} (off_policy : Bool) (beta delta : Option P) :
    Except String RQLearning.State :=
  if delta.isSome ∧ beta.isNone then
    .ok (RQLearning.initState off_policy true)
  else if delta.isNone ∧ beta.isSome then
    .ok (RQLearning.initState off_policy false)
  else
    .error "delta or beta parameters needed."

/-- `RQLearning._next_q`: row max in the off-policy setting, the policy-drawn
next action's value otherwise. -/
def RQLearning.nextQ (nA : ℕ) (S : RQLearning.State) (next_state : ℕ)
    (next_action : ℕ) : ℚ :=
  if S.off_policy then rowMax nA (S.Q next_state)
  else S.Q next_state next_action

/-- `RQLearning._update`: update `R_tilde(s,a)` toward the reward at rate
`α`; if not absorbing, update `Q_tilde(s,a)` toward `_next_q` at rate
`alpha * delta(...)` or `beta(...)` (`rate` is the scalar the chosen schedule
returns); finally recompose `Q(s,a) = R_tilde(s,a) + gamma * Q_tilde(s,a)`. -/
def RQLearning.update (nA : ℕ) (γ : ℚ) (S : RQLearning.State)
    (state action : ℕ) (reward : ℚ) (next_state : ℕ) (absorbing : Bool)
    (α rate : ℚ) (next_action : ℕ) : RQLearning.State :=
  let R2 := setQ S.R_tilde state action
    (S.R_tilde state action + α * (reward - S.R_tilde state action))
  let Qt2 :=
    if absorbing then S.Q_tilde
    else
      let q_next := RQLearning.nextQ nA S next_state next_action
      let β := if S.use_delta then α * rate else rate
      setQ S.Q_tilde state action
        (S.Q_tilde state action + β * (q_next - S.Q_tilde state action))
  { S with
    R_tilde := R2
    Q_tilde := Qt2
    Q := setQ S.Q state action (R2 state action + γ * Qt2 state action) }

/-- One recorded transition and its per-call collaborator outputs, for running
a sequence of `RQLearning` updates. -/
structure RQLearning.In where
  state : ℕ
  action : ℕ
  reward : ℚ
  next_state : ℕ
  absorbing : Bool
  α : ℚ
  rate : ℚ
  next_action : ℕ

/-- Run a sequence of `RQLearning` updates. -/
def RQLearning.run (nA : ℕ) (γ : ℚ) (S : RQLearning.State) :
    List RQLearning.In → RQLearning.State
  | [] => S
  | t :: rest =>
      RQLearning.run nA γ
        (RQLearning.update nA γ S t.state t.action t.reward t.next_state
          t.absorbing t.α t.rate t.next_action) rest

theorem left_le_foldl_max (x : ℚ) (xs : List ℚ) : x ≤ xs.foldl max x := by
  induction xs generalizing x with
  | nil => simp
  | cons y ys ih => exact le_trans (le_max_left x y) (ih (max x y))

theorem mem_le_foldl_max (x : ℚ) (xs : List ℚ) : ∀ z ∈ xs, z ≤ xs.foldl max x := by
  induction xs generalizing x with
  | nil => intro z hz; simp at hz
  | cons y ys ih =>
      intro z hz
      rcases List.mem_cons.mp hz with h | h
      · subst h
        exact le_trans (le_max_right x z) (left_le_foldl_max (max x z) ys)
      · exact ih (max x y) z h

theorem foldl_max_eq_or_mem (x : ℚ) (xs : List ℚ) :
    xs.foldl max x = x ∨ xs.foldl max x ∈ xs := by
  induction xs generalizing x with
  | nil => left; rfl
  | cons y ys ih =>
      rcases ih (max x y) with h | h
      · rcases max_choice x y with hxy | hxy
        · left; rw [List.foldl_cons, h, hxy]
        · right; rw [List.foldl_cons, h, hxy]; exact List.mem_cons_self y ys
      · right; exact List.mem_cons_of_mem y h

/-- Every entry of a row is at most the row maximum. -/
theorem le_rowMax (nA : ℕ) (row : ℕ → ℚ) (a : ℕ) (ha : a < nA) :
    row a ≤ rowMax nA row := by
  have hmem : row a ∈ (List.range nA).map row :=
    List.mem_map_of_mem row (List.mem_range.mpr ha)
  unfold rowMax listMax
  cases h : (List.range nA).map row with
  | nil => rw [h] at hmem; simp at hmem
  | cons y ys =>
      rw [h] at hmem
      rcases List.mem_cons.mp hmem with hz | hz
      · rw [hz]; exact left_le_foldl_max y ys
      · exact mem_le_foldl_max y ys _ hz

/-- A nonempty row attains its maximum. -/
theorem rowMax_mem (nA : ℕ) (row : ℕ → ℚ) (h : 0 < nA) :
    ∃ a, a < nA ∧ row a = rowMax nA row := by
  unfold rowMax listMax
  cases hl : (List.range nA).map row with
  | nil =>
      exfalso
      have : (List.range nA).map row ≠ [] := by
        simp [List.map_eq_nil_iff, List.range_eq_nil]
        omega
      exact this hl
  | cons y ys =>
      have hmem : ys.foldl max y ∈ y :: ys := by
        rcases foldl_max_eq_or_mem y ys with he | he
        · rw [he]; exact List.mem_cons_self y ys
        · exact List.mem_cons_of_mem y he
      rw [← hl] at hmem
      rcases List.mem_map.mp hmem with ⟨a, ha, hrow⟩
      refine ⟨a, List.mem_range.mp ha, ?_⟩
      rw [hrow]

/-- Membership in `argwhereMax`: the actions below `nA` attaining the maximum. -/
theorem mem_argwhereMax (nA : ℕ) (row : ℕ → ℚ) (x : ℕ) :
    x ∈ argwhereMax nA row ↔ x < nA ∧ row x = rowMax nA row := by
  unfold argwhereMax
  rw [List.mem_filter, List.mem_range]
  simp

/-- `argwhereMax` never repeats an action. -/
theorem argwhereMax_nodup (nA : ℕ) (row : ℕ → ℚ) : (argwhereMax nA row).Nodup :=
  (List.nodup_range nA).filter _

/-- A nonempty action space gives a nonempty argmax list. -/
theorem argwhereMax_ne_nil (nA : ℕ) (row : ℕ → ℚ) (h : 0 < nA) :
    argwhereMax nA row ≠ [] := by
  rcases rowMax_mem nA row h with ⟨a, ha, hrow⟩
  intro hnil
  have : a ∈ argwhereMax nA row := (mem_argwhereMax nA row a).mpr ⟨ha, hrow⟩
  rw [hnil] at this
  simp at this

/-- C3: Speedy Q-Learning writes `q_cur + alpha*(target_old - q_cur) +
(1-alpha)*(target_cur - target_old)` at the visited entry, with `target_old`
the bootstrap target from the previous snapshot store and `target_cur` the one
from the current store, and afterwards the previous store is exactly the
pre-update current store. -/
theorem speedy_update_formula_and_snapshot (nA : ℕ) (γ : ℚ)
    (S : SpeedyQLearning.State) (state action : ℕ) (reward : ℚ)
    (next_state : ℕ) (absorbing : Bool) (α : ℚ) :
    (SpeedyQLearning.update nA γ S state action reward next_state absorbing α).Q
      = setQ S.Q state action
          (S.Q state action
            + α * ((reward + γ * (if absorbing then 0 else rowMax nA (S.old_q next_state)))
                - S.Q state action)
            + (1 - α) * ((reward + γ * (if absorbing then 0 else rowMax nA (S.Q next_state)))
                - (reward + γ * (if absorbing then 0 else rowMax nA (S.old_q next_state)))))
    ∧ (SpeedyQLearning.update nA γ S state action reward next_state absorbing α).old_q
      = S.Q :=
  ⟨rfl, rfl⟩

/-- C4: the one-step rules Q-Learning, SARSA and Expected SARSA all perform
the residual update `Q_after(s,a) = Q_before(s,a) + alpha*(target -
Q_before(s,a))` with `target = reward + gamma*q_next`, and at the literal
inputs `Q_before=2, alpha=1/2, reward=1, gamma=9/10, q_next=4` the target is
`23/5 = 4.6` and the written value `33/10 = 3.3`. -/
theorem one_step_residual_update_law :
    (∀ (nA : ℕ) (γ : ℚ) (Q : Table) (s a : ℕ) (r : ℚ) (s2 : ℕ) (α : ℚ),
        QLearning.update nA γ Q s a r s2 false α s a
          = Q s a + α * ((r + γ * rowMax nA (Q s2)) - Q s a))
  ∧ (∀ (γ : ℚ) (Q : Table) (s a : ℕ) (r : ℚ) (s2 : ℕ) (α : ℚ) (a2 : ℕ),
        SARSA.update γ Q s a r s2 false α a2 s a
          = Q s a + α * ((r + γ * Q s2 a2) - Q s a))
  ∧ (∀ (nA : ℕ) (γ : ℚ) (Q : Table) (s a : ℕ) (r : ℚ) (s2 : ℕ) (α : ℚ)
        (dist : ℕ → ℚ),
        ExpectedSARSA.update nA γ Q s a r s2 false α dist s a
          = Q s a + α * ((r + γ * dotRange nA (Q s2) dist) - Q s a))
  ∧ ((1 : ℚ) + (9/10) * rowMax 1 ((fun s (_ : ℕ) => if s = 0 then (2:ℚ) else 4) 1)
        = 23/5
      ∧ QLearning.update 1 (9/10) (fun s _ => if s = 0 then (2:ℚ) else 4)
          0 0 1 1 false (1/2) 0 0 = 33/10
      ∧ SARSA.update (9/10) (fun s _ => if s = 0 then (2:ℚ) else 4)
          0 0 1 1 false (1/2) 0 0 0 = 33/10
      ∧ ExpectedSARSA.update 1 (9/10) (fun s _ => if s = 0 then (2:ℚ) else 4)
          0 0 1 1 false (1/2) (fun _ => 1) 0 0 = 33/10) := by
  refine ⟨?_, ?_, ?_, ?_, ?_, ?_, ?_⟩
  · intro nA γ Q s a r s2 α
    simp [QLearning.update, setQ]
  · intro γ Q s a r s2 α a2
    simp [SARSA.update, setQ]
  · intro nA γ Q s a r s2 α dist
    simp [ExpectedSARSA.update, setQ]
  · norm_num [rowMax, listMax, List.range_succ]
  · norm_num [QLearning.update, setQ, rowMax, listMax, List.range_succ]
  · norm_num [SARSA.update, setQ]
  · norm_num [ExpectedSARSA.update, setQ, dotRange, rowMax, listMax, List.range_succ]

/-- C5: on an absorbing transition every rule's bootstrap term is exactly 0,
independently of the stores: the absorbing update of each of the eleven rules
equals a formula in which the bootstrap is the literal 0 and no next-state
entry of any store occurs. -/
theorem absorbing_zero_bootstrap :
    (∀ (nA : ℕ) (γ : ℚ) (Q : Table) (s a : ℕ) (r : ℚ) (s2 : ℕ) (α : ℚ),
        QLearning.update nA γ Q s a r s2 true α
          = setQ Q s a (Q s a + α * (r + γ * 0 - Q s a)))
  ∧ (∀ (σ : Type) (call : σ → ℕ → ℕ → ℚ × σ) (nA : ℕ) (γ : ℚ)
        (S : DoubleQLearning.State σ) (s a : ℕ) (r : ℚ) (s2 : ℕ) (u : ℚ) (t : ℕ),
        (DoubleQLearning.update call nA γ S s a r s2 true u t).Q
            (DoubleQLearning.idx u) s a
          = S.Q (DoubleQLearning.idx u) s a
            + (call (S.alpha (DoubleQLearning.idx u)) s a).1
              * (r + γ * 0 - S.Q (DoubleQLearning.idx u) s a))
  ∧ (∀ (nA : ℕ) (γ : ℚ) (S : WeightedQLearning.State) (s a : ℕ) (r : ℚ)
        (s2 : ℕ) (α : ℚ) (samples : List (List ℚ)) (pd : ℕ),
        ∃ S2, WeightedQLearning.update nA γ S s a r s2 true α samples pd = .ok S2
          ∧ S2.Q s a = S.Q s a + α * (r + γ * 0 - S.Q s a))
  ∧ (∀ (nA : ℕ) (γ : ℚ) (S : SpeedyQLearning.State) (s a : ℕ) (r : ℚ)
        (s2 : ℕ) (α : ℚ),
        (SpeedyQLearning.update nA γ S s a r s2 true α).Q s a
          = S.Q s a + α * (r + γ * 0 - S.Q s a)
            + (1 - α) * ((r + γ * 0) - (r + γ * 0)))
  ∧ (∀ (γ : ℚ) (Q : Table) (s a : ℕ) (r : ℚ) (s2 : ℕ) (α : ℚ) (a2 : ℕ),
        SARSA.update γ Q s a r s2 true α a2
          = setQ Q s a (Q s a + α * (r + γ * 0 - Q s a)))
  ∧ (∀ (γ lam : ℚ) (repl : Bool) (S : SARSALambdaDiscrete.State) (s a : ℕ)
        (r : ℚ) (s2 : ℕ) (α : ℚ) (a2 x y : ℕ),
        (SARSALambdaDiscrete.update γ lam repl S s a r s2 true α a2).Q x y
          = S.Q x y + α * (r + γ * 0 - S.Q s a)
              * EligibilityTrace.update S.e s a repl x y)
  ∧ (∀ (predict : Vec → Vec → ℕ → ℚ) (diff : Vec → ℕ → Vec) (γ lam : ℚ)
        (S : SARSALambdaContinuous.State) (phi : Vec) (a : ℕ) (r : ℚ)
        (phi2 : Vec) (α : ℚ) (a2 i : ℕ),
        (SARSALambdaContinuous.update predict diff γ lam S phi a r phi2 true α a2).theta i
          = S.theta i + α * (r + γ * 0 - predict S.theta phi a)
              * (γ * lam * S.e i + diff phi a i))
  ∧ (∀ (nA : ℕ) (γ : ℚ) (Q : Table) (s a : ℕ) (r : ℚ) (s2 : ℕ) (α : ℚ)
        (dist : ℕ → ℚ),
        ExpectedSARSA.update nA γ Q s a r s2 true α dist
          = setQ Q s a (Q s a + α * (r + γ * 0 - Q s a)))
  ∧ (∀ (d nA : ℕ) (γ lam : ℚ) (S : TrueOnlineSARSALambda.State) (phi : Vec)
        (a : ℕ) (r : ℚ) (phi2 : Vec) (α : ℚ) (a2 i : ℕ),
        (TrueOnlineSARSALambda.update d nA γ lam S phi a r phi2 true α a2).theta i
          = S.theta i
            + (r + γ * 0
                - S.q_old.getD (dotRange (d * nA) S.theta (get_action_features d phi a)))
              * (γ * lam * S.e i
                + α * (1 - γ * lam * dotRange (d * nA) S.e (get_action_features d phi a))
                  * get_action_features d phi a i)
            + α * (S.q_old.getD (dotRange (d * nA) S.theta (get_action_features d phi a))
                - dotRange (d * nA) S.theta (get_action_features d phi a))
              * get_action_features d phi a i)
  ∧ (∀ (nA : ℕ) (S : RLearning.State) (s a : ℕ) (r : ℚ) (s2 : ℕ) (α β : ℚ),
        (RLearning.update nA S s a r s2 true α β).Q s a
          = S.Q s a + α * (r - S.rho + 0 - S.Q s a))
  ∧ (∀ (nA : ℕ) (γ : ℚ) (S : RQLearning.State) (s a : ℕ) (r : ℚ) (s2 : ℕ)
        (α rate : ℚ) (a2 : ℕ),
        (RQLearning.update nA γ S s a r s2 true α rate a2).Q_tilde = S.Q_tilde) := by
  refine ⟨?_, ?_, ?_, ?_, ?_, ?_, ?_, ?_, ?_, ?_, ?_⟩
  · intro nA γ Q s a r s2 α
    simp [QLearning.update]
  · intro σ call nA γ S s a r s2 u t
    simp [DoubleQLearning.update, setQ]
  · intro nA γ S s a r s2 α samples pd
    refine ⟨_, rfl, ?_⟩
    simp [WeightedQLearning.update, setQ]
  · intro nA γ S s a r s2 α
    simp [SpeedyQLearning.update, setQ]
  · intro γ Q s a r s2 α a2
    simp [SARSA.update]
  · intro γ lam repl S s a r s2 α a2 x y
    simp [SARSALambdaDiscrete.update]
  · intro predict diff γ lam S phi a r phi2 α a2 i
    simp [SARSALambdaContinuous.update]
  · intro nA γ Q s a r s2 α dist
    simp [ExpectedSARSA.update]
  · intro d nA γ lam S phi a r phi2 α a2 i
    simp [TrueOnlineSARSALambda.update]
  · intro nA S s a r s2 α β
    simp [RLearning.update, setQ]
  · intro nA γ S s a r s2 α rate a2
    simp [RQLearning.update]

/-- C6: in R-Learning the average-reward estimate changes by
`beta*(reward + q_next - q_max - rho)` exactly when the just-written value is
the row maximum of the updated row, and is otherwise left unchanged; and in
the single-state two-action scenario (`Q=[0,0]`, `reward=1`, `beta=1/10`)
updating action 0 to a new maximum changes `rho` while a subsequent update of
action 1 that does not become the maximum leaves `rho` unchanged. -/
theorem rlearning_greedy_rho_coupling :
    (∀ (nA : ℕ) (S : RLearning.State) (s a : ℕ) (r : ℚ) (s2 : ℕ)
        (absorbing : Bool) (α β : ℚ),
      (RLearning.update nA S s a r s2 absorbing α β).Q
        = setQ S.Q s a
            (S.Q s a + α * (r - S.rho
              + (if absorbing then 0 else rowMax nA (S.Q s2)) - S.Q s a))
      ∧ (RLearning.update nA S s a r s2 absorbing α β).rho
        = (if S.Q s a + α * (r - S.rho
              + (if absorbing then 0 else rowMax nA (S.Q s2)) - S.Q s a)
            = rowMax nA ((RLearning.update nA S s a r s2 absorbing α β).Q s)
          then S.rho + β * (r + (if absorbing then 0 else rowMax nA (S.Q s2))
              - rowMax nA ((RLearning.update nA S s a r s2 absorbing α β).Q s)
              - S.rho)
          else S.rho))
  ∧ ((RLearning.update 2 RLearning.init 0 0 1 0 false (1/2) (1/10)).Q 0 0
        = rowMax 2 ((RLearning.update 2 RLearning.init 0 0 1 0 false (1/2) (1/10)).Q 0)
      ∧ (RLearning.update 2 RLearning.init 0 0 1 0 false (1/2) (1/10)).rho
        ≠ RLearning.init.rho)
  ∧ ((RLearning.update 2 (RLearning.update 2 RLearning.init 0 0 1 0 false (1/2) (1/10))
          0 1 1 0 false (1/10) (1/10)).Q 0 1
        ≠ rowMax 2 ((RLearning.update 2 (RLearning.update 2 RLearning.init 0 0 1 0 false (1/2) (1/10))
          0 1 1 0 false (1/10) (1/10)).Q 0)
      ∧ (RLearning.update 2 (RLearning.update 2 RLearning.init 0 0 1 0 false (1/2) (1/10))
          0 1 1 0 false (1/10) (1/10)).rho
        = (RLearning.update 2 RLearning.init 0 0 1 0 false (1/2) (1/10)).rho) := by
  refine ⟨?_, ?_, ?_⟩
  · intro nA S s a r s2 absorbing α β
    constructor
    · rfl
    · rfl
  · constructor <;>
      norm_num [RLearning.update, RLearning.init, setQ, rowMax, listMax, List.range_succ]
  · constructor <;>
      norm_num [RLearning.update, RLearning.init, setQ, rowMax, listMax, List.range_succ]

/-- C8: constructing RQ-Learning with both of `beta`, `delta` supplied, or
with neither, raises `ValueError` before any table is built or update can
run; exactly one of the two makes construction succeed. -/
theorem rqlearning_config_guard (P : Type) (off_policy : Bool)
    (beta delta : Option P) :
    (((delta.isSome = true ∧ beta.isSome = true)
        ∨ (delta.isNone = true ∧ beta.isNone = true)) →
      RQLearning.make off_policy beta delta
        = .error "delta or beta parameters needed.")
    ∧ (((delta.isSome = true ∧ beta.isNone = true)
        ∨ (delta.isNone = true ∧ beta.isSome = true)) →
      ∃ S, RQLearning.make off_policy beta delta = .ok S) := by
  cases beta <;> cases delta <;>
    simp [RQLearning.make, RQLearning.initState]


theorem setQ_write_self (T : Table) (s a x y : ℕ) :
    setQ T s a (T s a) x y = T x y := by
  unfold setQ
  split_ifs with h
  · rw [h.1, h.2]
  · rfl

/-- C1 counterexample: Speedy Q-Learning is not idempotent under a zero
learning rate.  From the all-zero initial state, one update of `(0,0)` with
learning rate 1 (reward 1, next state 1), then one update of `(1,0)` with
learning rate 0 (reward 0, next state 0, `gamma = 9/10`) changes `Q[1,0]`
even though the schedule returned 0 at that call. -/
theorem speedy_zero_alpha_changes_Q :
    (SpeedyQLearning.update 1 (9/10)
        (SpeedyQLearning.update 1 (9/10) SpeedyQLearning.init 0 0 1 1 false 1)
        1 0 0 0 false 0).Q 1 0
      ≠ (SpeedyQLearning.update 1 (9/10) SpeedyQLearning.init 0 0 1 1 false 1).Q 1 0 := by
  norm_num [SpeedyQLearning.update, SpeedyQLearning.init, setQ, rowMax,
    listMax, List.range_succ]

/-- C1 (amended): a call whose effective learning rate is 0 leaves the value
store exactly unchanged for Q-Learning, Double Q-Learning, Weighted
Q-Learning, SARSA, discrete SARSA(lambda), continuous SARSA(lambda),
Expected SARSA and R-Learning; Speedy Q-Learning does not satisfy this: with
zero learning rate it still writes `q_cur + (target_cur - target_old)`, which
moves `Q(s,a)` whenever the current-store and snapshot-store targets differ. -/
theorem zero_learning_rate_idempotence_amended :
    (∀ (nA : ℕ) (γ : ℚ) (Q : Table) (s a : ℕ) (r : ℚ) (s2 : ℕ)
        (ab : Bool) (x y : ℕ),
        QLearning.update nA γ Q s a r s2 ab 0 x y = Q x y)
  ∧ (∀ (σ : Type) (call : σ → ℕ → ℕ → ℚ × σ) (nA : ℕ) (γ : ℚ)
        (S : DoubleQLearning.State σ) (s a : ℕ) (r : ℚ) (s2 : ℕ) (ab : Bool)
        (u : ℚ) (t : ℕ),
        (call (S.alpha (DoubleQLearning.idx u)) s a).1 = 0 →
        ∀ (j : Fin 2) (x y : ℕ),
          (DoubleQLearning.update call nA γ S s a r s2 ab u t).Q j x y
            = S.Q j x y)
  ∧ (∀ (nA : ℕ) (γ : ℚ) (S : WeightedQLearning.State) (s a : ℕ) (r : ℚ)
        (s2 : ℕ) (ab : Bool) (samples : List (List ℚ)) (pd : ℕ)
        (S2 : WeightedQLearning.State),
        WeightedQLearning.update nA γ S s a r s2 ab 0 samples pd = .ok S2 →
        ∀ x y, S2.Q x y = S.Q x y)
  ∧ (∀ (γ : ℚ) (Q : Table) (s a : ℕ) (r : ℚ) (s2 : ℕ) (ab : Bool)
        (a2 x y : ℕ),
        SARSA.update γ Q s a r s2 ab 0 a2 x y = Q x y)
  ∧ (∀ (γ lam : ℚ) (repl : Bool) (S : SARSALambdaDiscrete.State) (s a : ℕ)
        (r : ℚ) (s2 : ℕ) (ab : Bool) (a2 x y : ℕ),
        (SARSALambdaDiscrete.update γ lam repl S s a r s2 ab 0 a2).Q x y
          = S.Q x y)
  ∧ (∀ (predict : Vec → Vec → ℕ → ℚ) (diff : Vec → ℕ → Vec) (γ lam : ℚ)
        (S : SARSALambdaContinuous.State) (phi : Vec) (a : ℕ) (r : ℚ)
        (phi2 : Vec) (ab : Bool) (a2 i : ℕ),
        (SARSALambdaContinuous.update predict diff γ lam S phi a r phi2 ab 0 a2).theta i
          = S.theta i)
  ∧ (∀ (nA : ℕ) (γ : ℚ) (Q : Table) (s a : ℕ) (r : ℚ) (s2 : ℕ) (ab : Bool)
        (dist : ℕ → ℚ) (x y : ℕ),
        ExpectedSARSA.update nA γ Q s a r s2 ab 0 dist x y = Q x y)
  ∧ (∀ (nA : ℕ) (S : RLearning.State) (s a : ℕ) (r : ℚ) (s2 : ℕ) (ab : Bool)
        (β : ℚ) (x y : ℕ),
        (RLearning.update nA S s a r s2 ab 0 β).Q x y = S.Q x y)
  ∧ (∀ (nA : ℕ) (γ : ℚ) (S : SpeedyQLearning.State) (s a : ℕ) (r : ℚ)
        (s2 : ℕ) (ab : Bool),
        (SpeedyQLearning.update nA γ S s a r s2 ab 0).Q s a
          = S.Q s a
            + (γ * (if ab then 0 else rowMax nA (S.Q s2))
              - γ * (if ab then 0 else rowMax nA (S.old_q s2)))) := by
  refine ⟨?_, ?_, ?_, ?_, ?_, ?_, ?_, ?_, ?_⟩
  · intro nA γ Q s a r s2 ab x y
    have h : QLearning.update nA γ Q s a r s2 ab 0 = setQ Q s a (Q s a) := by
      simp [QLearning.update]
    rw [h, setQ_write_self]
  · intro σ call nA γ S s a r s2 ab u t hα j x y
    unfold DoubleQLearning.update
    simp only [hα, zero_mul, add_zero]
    split_ifs with h
    · rw [h, setQ_write_self]
    · rfl
  · intro nA γ S s a r s2 ab samples pd S2 h x y
    unfold WeightedQLearning.update at h
    cases hm : (if ab then Except.ok ((0:ℚ), S.w, S.next_action)
        else WeightedQLearning.nextQ nA S s2 samples pd) with
    | error e =>
        rw [hm] at h
        cases h
    | ok v =>
        obtain ⟨qn, w2, na2⟩ := v
        rw [hm] at h
        simp only [Except.ok.injEq] at h
        rw [← h]
        simp only [zero_mul, add_zero]
        rw [setQ_write_self]
  · intro γ Q s a r s2 ab a2 x y
    have h : SARSA.update γ Q s a r s2 ab 0 a2 = setQ Q s a (Q s a) := by
      simp [SARSA.update]
    rw [h, setQ_write_self]
  · intro γ lam repl S s a r s2 ab a2 x y
    simp [SARSALambdaDiscrete.update]
  · intro predict diff γ lam S phi a r phi2 ab a2 i
    simp [SARSALambdaContinuous.update]
  · intro nA γ Q s a r s2 ab dist x y
    have h : ExpectedSARSA.update nA γ Q s a r s2 ab 0 dist = setQ Q s a (Q s a) := by
      simp [ExpectedSARSA.update]
    rw [h, setQ_write_self]
  · intro nA S s a r s2 ab β x y
    have h : (RLearning.update nA S s a r s2 ab 0 β).Q = setQ S.Q s a (S.Q s a) := by
      simp [RLearning.update]
    rw [h, setQ_write_self]
  · intro nA γ S s a r s2 ab
    have h : (SpeedyQLearning.update nA γ S s a r s2 ab 0).Q
        = setQ S.Q s a (S.Q s a
            + (γ * (if ab then 0 else rowMax nA (S.Q s2))
              - γ * (if ab then 0 else rowMax nA (S.old_q s2)))) := by
      simp [SpeedyQLearning.update]
    rw [h]
    simp [setQ]


theorem getD_zero_eq_get (l : List ℕ) (n : ℕ) (h : n < l.length) :
    l.getD n 0 = l.get ⟨n, h⟩ := by
  simp [List.getD_eq_getElem?_getD, List.getElem?_eq_getElem h]

/-- C2: structure of one `DoubleQLearning._update` call on a non-absorbing
transition.  With `i` the member index drawn from the uniform draw `u`
(`i = 0` exactly on the lower half of the unit interval) and `ties` the list
of argmax actions of `Q_i(next_state, .)`: `ties` is exactly the set of
maximizing actions, repeats none of them, and the tie-break draw reaches each
of them through exactly one residue (uniform among ties, not first-index);
the drawn bootstrap action `a*` lies in `ties`; the written value bootstraps
from the *other* store at `a*` using member `i`'s own schedule; only the
entry `(i, state, action)` changes; and only member `i`'s schedule state
advances, both members starting from the same cloned initial state. -/
theorem double_q_update_structure (σ : Type) (call : σ → ℕ → ℕ → ℚ × σ)
    (nA : ℕ) (γ : ℚ) (S : DoubleQLearning.State σ) (state action : ℕ)
    (reward : ℚ) (next_state : ℕ) (u : ℚ) (tieDraw : ℕ) :
    (DoubleQLearning.idx u = 0 ↔ u < 1/2)
  ∧ (∀ x, x ∈ argwhereMax nA (S.Q (DoubleQLearning.idx u) next_state)
      ↔ (x < nA ∧ ∀ y, y < nA →
          S.Q (DoubleQLearning.idx u) next_state y
            ≤ S.Q (DoubleQLearning.idx u) next_state x))
  ∧ (argwhereMax nA (S.Q (DoubleQLearning.idx u) next_state)).Nodup
  ∧ (∀ d1 d2,
      d1 < (argwhereMax nA (S.Q (DoubleQLearning.idx u) next_state)).length →
      d2 < (argwhereMax nA (S.Q (DoubleQLearning.idx u) next_state)).length →
      (argwhereMax nA (S.Q (DoubleQLearning.idx u) next_state)).getD d1 0
        = (argwhereMax nA (S.Q (DoubleQLearning.idx u) next_state)).getD d2 0 →
      d1 = d2)
  ∧ (∀ x, x ∈ argwhereMax nA (S.Q (DoubleQLearning.idx u) next_state) →
      ∃ d, d < (argwhereMax nA (S.Q (DoubleQLearning.idx u) next_state)).length
        ∧ (argwhereMax nA (S.Q (DoubleQLearning.idx u) next_state)).getD d 0 = x)
  ∧ (0 < nA →
      (argwhereMax nA (S.Q (DoubleQLearning.idx u) next_state)).getD
          (tieDraw % (argwhereMax nA (S.Q (DoubleQLearning.idx u) next_state)).length) 0
        ∈ argwhereMax nA (S.Q (DoubleQLearning.idx u) next_state))
  ∧ ((DoubleQLearning.update call nA γ S state action reward next_state false u tieDraw).Q
        (DoubleQLearning.idx u) state action
      = S.Q (DoubleQLearning.idx u) state action
        + (call (S.alpha (DoubleQLearning.idx u)) state action).1
          * (reward
            + γ * S.Q (1 - DoubleQLearning.idx u) next_state
                ((argwhereMax nA (S.Q (DoubleQLearning.idx u) next_state)).getD
                  (tieDraw % (argwhereMax nA (S.Q (DoubleQLearning.idx u) next_state)).length) 0)
            - S.Q (DoubleQLearning.idx u) state action))
  ∧ (∀ (j : Fin 2) (x y : ℕ),
      ¬(j = DoubleQLearning.idx u ∧ x = state ∧ y = action) →
      (DoubleQLearning.update call nA γ S state action reward next_state false u tieDraw).Q
          j x y = S.Q j x y)
  ∧ ((DoubleQLearning.update call nA γ S state action reward next_state false u tieDraw).alpha
        (DoubleQLearning.idx u)
      = (call (S.alpha (DoubleQLearning.idx u)) state action).2
    ∧ ∀ j : Fin 2, j ≠ DoubleQLearning.idx u →
        (DoubleQLearning.update call nA γ S state action reward next_state false u tieDraw).alpha
          j = S.alpha j)
  ∧ (∀ a0 : σ, (DoubleQLearning.init (σ := σ) a0).alpha 0 = a0
      ∧ (DoubleQLearning.init (σ := σ) a0).alpha 1 = a0) := by
  refine ⟨?_, ?_, argwhereMax_nodup _ _, ?_, ?_, ?_, ?_, ?_, ⟨?_, ?_⟩, ?_⟩
  · unfold DoubleQLearning.idx
    split_ifs with h <;> simpa using h
  · intro x
    rw [mem_argwhereMax]
    constructor
    · rintro ⟨hx, hmax⟩
      exact ⟨hx, fun y hy => hmax ▸ le_rowMax nA _ y hy⟩
    · rintro ⟨hx, hub⟩
      refine ⟨hx, le_antisymm (le_rowMax nA _ x hx) ?_⟩
      rcases rowMax_mem nA (S.Q (DoubleQLearning.idx u) next_state)
          (Nat.pos_of_ne_zero (by omega)) with ⟨m, hm, hrow⟩
      rw [← hrow]
      exact hub m hm
  · intro d1 d2 h1 h2 heq
    rw [getD_zero_eq_get _ _ h1, getD_zero_eq_get _ _ h2] at heq
    have := ((argwhereMax_nodup nA (S.Q (DoubleQLearning.idx u) next_state)).get_inj_iff).mp heq
    exact congrArg Fin.val this
  · intro x hx
    rcases List.mem_iff_getElem.mp hx with ⟨d, hd, hget⟩
    refine ⟨d, hd, ?_⟩
    rw [getD_zero_eq_get _ _ hd]
    exact hget
  · intro hnA
    have hne := argwhereMax_ne_nil nA (S.Q (DoubleQLearning.idx u) next_state) hnA
    have hlen : 0 < (argwhereMax nA (S.Q (DoubleQLearning.idx u) next_state)).length :=
      List.length_pos.mpr hne
    have hmod := Nat.mod_lt tieDraw hlen
    rw [getD_zero_eq_get _ _ hmod]
    exact List.get_mem _ _ hmod
  · simp [DoubleQLearning.update, setQ]
  · intro j x y hj
    by_cases h : j = DoubleQLearning.idx u
    · subst h
      have hxy : ¬(x = state ∧ y = action) := fun hc => hj ⟨rfl, hc⟩
      simp [DoubleQLearning.update, setQ, hxy]
    · simp [DoubleQLearning.update, h]
  · simp [DoubleQLearning.update]
  · intro j hj
    simp [DoubleQLearning.update, if_neg hj]
  · intro a0
    exact ⟨rfl, rfl⟩


/-- The sigma-floor invariant of Weighted Q-Learning: every (squared) sigma
entry is at least `1e-10`. -/
def WeightedQLearning.State.sigmaFloor (S : WeightedQLearning.State) : Prop :=
  ∀ s a, (1 / 10 ^ 10 : ℚ) ≤ S.sigmaSq s a

theorem weighted_init_sigmaFloor (sampling : Bool) (precision : ℕ)
    (weighted_policy : Bool) :
    (WeightedQLearning.init sampling precision weighted_policy).sigmaFloor := by
  intro s a
  norm_num [WeightedQLearning.init]

theorem weighted_update_sigmaFloor (nA : ℕ) (γ : ℚ)
    (S : WeightedQLearning.State) (state action : ℕ) (reward : ℚ)
    (next_state : ℕ) (absorbing : Bool) (α : ℚ) (samples : List (List ℚ))
    (pd : ℕ) (S2 : WeightedQLearning.State)
    (hS : S.sigmaFloor)
    (h : WeightedQLearning.update nA γ S state action reward next_state
        absorbing α samples pd = .ok S2) :
    S2.sigmaFloor := by
  unfold WeightedQLearning.update at h
  cases hm : (if absorbing then Except.ok ((0:ℚ), S.w, S.next_action)
      else WeightedQLearning.nextQ nA S next_state samples pd) with
  | error e =>
      rw [hm] at h
      cases h
  | ok v =>
      obtain ⟨qn, w2, na2⟩ := v
      rw [hm] at h
      simp only [Except.ok.injEq] at h
      rw [← h]
      intro s a
      simp only []
      split_ifs with hn
      · unfold setQ
        split_ifs with hsa
        · exact le_max_right _ _
        · exact hS s a
      · exact hS s a

theorem weighted_run_sigmaFloor (nA : ℕ) (γ : ℚ)
    (S : WeightedQLearning.State) (trace : List WeightedQLearning.In)
    (S2 : WeightedQLearning.State) (hS : S.sigmaFloor)
    (h : WeightedQLearning.run nA γ S trace = .ok S2) : S2.sigmaFloor := by
  induction trace generalizing S with
  | nil =>
      unfold WeightedQLearning.run at h
      simp only [Except.ok.injEq] at h
      rw [← h]
      exact hS
  | cons t rest ih =>
      unfold WeightedQLearning.run at h
      cases hm : WeightedQLearning.update nA γ S t.state t.action t.reward
          t.next_state t.absorbing t.α t.samples t.policyDraw with
      | error e => rw [hm] at h; cases h
      | ok S3 =>
          rw [hm] at h
          exact ih S3 (weighted_update_sigmaFloor nA γ S t.state t.action
            t.reward t.next_state t.absorbing t.α t.samples t.policyDraw S3 hS hm) h

/-- C7: for every sequence of Weighted Q-Learning updates from the initial
state (any flags, any transitions, any realized samples — including
degenerate zero-variance target sequences), every entry of the sigma store
stays at least `sqrt(1e-10)`: the stored squared value is at least `1e-10`,
hence the standard deviation `sqrt(sigmaSq)` is at least `sqrt(1e-10)`. -/
theorem weighted_sigma_never_below_floor (sampling : Bool) (precision : ℕ)
    (weighted_policy : Bool) (nA : ℕ) (γ : ℚ)
    (trace : List WeightedQLearning.In) (S2 : WeightedQLearning.State)
    (h : WeightedQLearning.run nA γ
        (WeightedQLearning.init sampling precision weighted_policy) trace
      = .ok S2) (s a : ℕ) :
    (1 / 10 ^ 10 : ℚ) ≤ S2.sigmaSq s a
      ∧ Real.sqrt ((1 : ℝ) / 10 ^ 10) ≤ Real.sqrt ((S2.sigmaSq s a : ℚ) : ℝ) := by
  have hq : (1 / 10 ^ 10 : ℚ) ≤ S2.sigmaSq s a :=
    weighted_run_sigmaFloor nA γ _ trace S2
      (weighted_init_sigmaFloor sampling precision weighted_policy) h s a
  refine ⟨hq, Real.sqrt_le_sqrt ?_⟩
  have := (Rat.cast_le (K := ℝ)).mpr hq
  simpa using this

/-- C7 witness: the empty update sequence at concrete flags. -/
theorem weighted_sigma_never_below_floor_witness :
    (1 / 10 ^ 10 : ℚ)
        ≤ (WeightedQLearning.init true 1000 false).sigmaSq 0 0
      ∧ Real.sqrt ((1 : ℝ) / 10 ^ 10)
        ≤ Real.sqrt (((WeightedQLearning.init true 1000 false).sigmaSq 0 0 : ℚ) : ℝ) :=
  weighted_sigma_never_below_floor true 1000 false 1 (9/10) [] _ rfl 0 0


/-- C9 counterexample: constructing Weighted Q-Learning with
`sampling=False` does not fail — a full update on an absorbing transition
completes, and the `NotImplementedError` only appears on a non-absorbing
update, when `_next_q` is first consulted. -/
theorem weighted_sampling_false_passes_construction :
    (∃ S2, WeightedQLearning.update 1 (9/10)
        (WeightedQLearning.init false 1000 false) 0 0 1 1 true 1 [] 0
      = .ok S2)
    ∧ WeightedQLearning.update 1 (9/10)
        (WeightedQLearning.init false 1000 false) 0 0 1 1 false 1 [] 0
      = .error "NotImplementedError" :=
  ⟨⟨_, rfl⟩, rfl⟩

/-- C9 (amended): `sampling=False` is accepted at construction (the
constructor merely records the flag); the unsupported non-sampling estimator
signals `NotImplementedError` — rather than silently approximating — but
only on the first update that consults the estimator, i.e. any non-absorbing
transition, while absorbing transitions complete without error. -/
theorem weighted_sampling_false_error_on_estimator_use :
    (∀ (precision : ℕ) (wp : Bool),
        (WeightedQLearning.init false precision wp).sampling = false)
  ∧ (∀ (nA : ℕ) (γ : ℚ) (S : WeightedQLearning.State) (s a : ℕ) (r : ℚ)
        (s2 : ℕ) (α : ℚ) (samples : List (List ℚ)) (pd : ℕ),
        S.sampling = false →
        WeightedQLearning.update nA γ S s a r s2 false α samples pd
          = .error "NotImplementedError")
  ∧ (∀ (nA : ℕ) (γ : ℚ) (S : WeightedQLearning.State) (s a : ℕ) (r : ℚ)
        (s2 : ℕ) (α : ℚ) (samples : List (List ℚ)) (pd : ℕ),
        ∃ S2, WeightedQLearning.update nA γ S s a r s2 true α samples pd
          = .ok S2) := by
  refine ⟨fun _ _ => rfl, ?_, ?_⟩
  · intro nA γ S s a r s2 α samples pd h
    simp [WeightedQLearning.update, WeightedQLearning.nextQ, h]
  · intro nA γ S s a r s2 α samples pd
    exact ⟨_, rfl⟩

/-- The decomposition invariant of RQ-Learning:
`Q(s,a) = R_tilde(s,a) + gamma * Q_tilde(s,a)` at every entry. -/
def RQLearning.State.combined (S : RQLearning.State) (γ : ℚ) : Prop :=
  ∀ s a, S.Q s a = S.R_tilde s a + γ * S.Q_tilde s a

theorem rq_update_entry_identity (nA : ℕ) (γ : ℚ) (S : RQLearning.State)
    (state action : ℕ) (reward : ℚ) (next_state : ℕ) (absorbing : Bool)
    (α rate : ℚ) (a2 : ℕ) :
    (RQLearning.update nA γ S state action reward next_state absorbing α rate a2).Q
        state action
      = (RQLearning.update nA γ S state action reward next_state absorbing α rate a2).R_tilde
          state action
        + γ * (RQLearning.update nA γ S state action reward next_state absorbing α rate a2).Q_tilde
            state action := by
  simp [RQLearning.update, setQ]

theorem rq_update_frame (nA : ℕ) (γ : ℚ) (S : RQLearning.State)
    (state action : ℕ) (reward : ℚ) (next_state : ℕ) (absorbing : Bool)
    (α rate : ℚ) (a2 : ℕ) (x y : ℕ) (hxy : ¬(x = state ∧ y = action)) :
    (RQLearning.update nA γ S state action reward next_state absorbing α rate a2).Q x y
        = S.Q x y
    ∧ (RQLearning.update nA γ S state action reward next_state absorbing α rate a2).R_tilde x y
        = S.R_tilde x y
    ∧ (RQLearning.update nA γ S state action reward next_state absorbing α rate a2).Q_tilde x y
        = S.Q_tilde x y := by
  refine ⟨?_, ?_, ?_⟩
  · simp [RQLearning.update, setQ, hxy]
  · simp [RQLearning.update, setQ, hxy]
  · unfold RQLearning.update
    simp only []
    split_ifs with h h2
    · rfl
    · unfold setQ
      rw [if_neg hxy]
    · unfold setQ
      rw [if_neg hxy]

theorem rq_update_combined (nA : ℕ) (γ : ℚ) (S : RQLearning.State)
    (t : RQLearning.In) (hS : S.combined γ) :
    (RQLearning.update nA γ S t.state t.action t.reward t.next_state
        t.absorbing t.α t.rate t.next_action).combined γ := by
  intro x y
  by_cases hxy : x = t.state ∧ y = t.action
  · rw [hxy.1, hxy.2]
    exact rq_update_entry_identity nA γ S t.state t.action t.reward
      t.next_state t.absorbing t.α t.rate t.next_action
  · obtain ⟨hQ, hR, hQt⟩ := rq_update_frame nA γ S t.state t.action t.reward
      t.next_state t.absorbing t.α t.rate t.next_action x y hxy
    rw [hQ, hR, hQt]
    exact hS x y

theorem rq_run_combined (nA : ℕ) (γ : ℚ) (S : RQLearning.State)
    (trace : List RQLearning.In) (hS : S.combined γ) :
    (RQLearning.run nA γ S trace).combined γ := by
  induction trace generalizing S with
  | nil => exact hS
  | cons t rest ih =>
      exact ih _ (rq_update_combined nA γ S t hS)

/-- C10: starting from the all-zero tables of construction, after every
completed sequence of RQ-Learning updates the combined table satisfies
`Q(s,a) = R_tilde(s,a) + gamma * Q_tilde(s,a)` at every entry; moreover each
call re-establishes the identity at the updated entry regardless of the
absorbing flag, and leaves every other entry of all three tables unchanged. -/
theorem rq_combined_table_invariant :
    (∀ (nA : ℕ) (γ : ℚ) (off_policy use_delta : Bool)
        (trace : List RQLearning.In) (s a : ℕ),
        (RQLearning.run nA γ (RQLearning.initState off_policy use_delta) trace).Q s a
          = (RQLearning.run nA γ (RQLearning.initState off_policy use_delta) trace).R_tilde s a
            + γ * (RQLearning.run nA γ (RQLearning.initState off_policy use_delta) trace).Q_tilde s a)
  ∧ (∀ (nA : ℕ) (γ : ℚ) (S : RQLearning.State) (state action : ℕ)
        (reward : ℚ) (next_state : ℕ) (absorbing : Bool) (α rate : ℚ)
        (a2 : ℕ),
        (RQLearning.update nA γ S state action reward next_state absorbing α rate a2).Q
            state action
          = (RQLearning.update nA γ S state action reward next_state absorbing α rate a2).R_tilde
              state action
            + γ * (RQLearning.update nA γ S state action reward next_state absorbing α rate a2).Q_tilde
                state action)
  ∧ (∀ (nA : ℕ) (γ : ℚ) (S : RQLearning.State) (state action : ℕ)
        (reward : ℚ) (next_state : ℕ) (absorbing : Bool) (α rate : ℚ)
        (a2 x y : ℕ),
        ¬(x = state ∧ y = action) →
        (RQLearning.update nA γ S state action reward next_state absorbing α rate a2).Q x y
            = S.Q x y
          ∧ (RQLearning.update nA γ S state action reward next_state absorbing α rate a2).R_tilde x y
            = S.R_tilde x y
          ∧ (RQLearning.update nA γ S state action reward next_state absorbing α rate a2).Q_tilde x y
            = S.Q_tilde x y) := by
  refine ⟨?_, ?_, ?_⟩
  · intro nA γ off_policy use_delta trace s a
    exact rq_run_combined nA γ (RQLearning.initState off_policy use_delta) trace
      (fun x y => by simp [RQLearning.initState]) s a
  · exact rq_update_entry_identity
  · exact rq_update_frame

end TD
